import Mathlib

/-!
Shallow embedding of the WSI patch-embedding pipeline of
`sopa/embedding/patches.py`, together with theorems settling the frozen
claims about it.  Python floats are modelled by `ℚ` (every comparison and
arithmetic operation performed by this code is exact on the rationals that
occur), Python `int` by `ℤ`, Python `None`-able values by `Option`, and
Python exceptions by `Except PyError`.
-/

namespace Sopa

/-- Exceptions that the modelled Python code can raise. -/
inductive PyError where
  | keyError
  | assertionError
  | indexError
  | valueError
deriving DecidableEq

/-- Python `int(q)` on a (non-complex) number: truncation toward zero. -/
def pyInt (q : ℚ) : ℤ := if q < 0 then -⌊-q⌋ else ⌊q⌋

/-- Python list indexing `xs[i]`: a negative index counts from the end, an
index out of range raises `IndexError`. -/
def pyIndex (xs : List ℚ) (i : ℤ) : Except PyError ℚ :=
  let j : ℤ := if i < 0 then i + xs.length else i
  if h : 0 ≤ j ∧ j < xs.length then .ok (xs.get ⟨j.toNat, by omega⟩)
  else .error .indexError

/-- Python truthiness of an optional numeric value (`None` and `0` are
falsy); models `if d.get(key):` on the tiffslide properties dict. -/
def truthy : Option ℚ → Bool
  | none => false
  | some v => v != 0

/-- Python `min(xs, key=k)` on a nonempty list: the first element attaining
the minimal key (replacement only on strict decrease). -/
def pyMinKey (k : ℚ → ℚ) (x : ℚ) (xs : List ℚ) : ℚ :=
  xs.foldl (fun best y => if k y < k best then y else best) x

/-- The two entries of `tiff_metadata["properties"]` that the code reads:
`tiffslide.objective-power` and `tiffslide.mpp-x`. -/
structure PropMap where
  objectivePower : Option ℚ
  mppX : Option ℚ
deriving DecidableEq

/-- The `tiff_metadata` dict.  `properties = none` models the `"properties"`
key being absent from the dict (e.g. the empty dict that
`image.attrs.get("metadata", {})` defaults to). -/
structure TiffMetadata where
  properties : Option PropMap
  level_downsamples : List ℚ
deriving DecidableEq

/-- The 4-tuple `(level, resize_factor, patch_width, success)` returned by
`_get_extraction_parameters`; on the failure path Python returns
`(None, None, None, False)`. -/
structure ExtractionParams where
  level : Option ℤ
  resize_factor : Option ℚ
  patch_width : Option ℤ
  ok : Bool
deriving DecidableEq

/-- The scan loop of `_get_best_level_for_downsample`: iterate over the
downsample list with a running index; on the first entry strictly above the
threshold `t = downsample + epsilon` return `index - 1`; if no entry
exceeds it return `total - 1` (the last level). -/
def bestLevelScan (t : ℚ) : List ℚ → ℤ → ℤ → ℤ
  | [], _, total => total - 1
  | ds :: rest, idx, total =>
    if t < ds then idx - 1 else bestLevelScan t rest (idx + 1) total

/-- `_get_best_level_for_downsample(level_downsamples, downsample, epsilon=0.01)`. -/
def _get_best_level_for_downsample (level_downsamples : List ℚ) (downsample : ℚ)
    (epsilon : ℚ := 1 / 100) : ℤ :=
  if downsample ≤ 1 then 0
  else bestLevelScan (downsample + epsilon) level_downsamples 0 level_downsamples.length

/-- `_get_extraction_parameters(tiff_metadata, patch_width, level, magnification)`.
Accessing the `"properties"` key of the metadata dict raises `KeyError`
when the key is absent; indexing `level_downsamples` out of range raises
`IndexError`. -/
def _get_extraction_parameters (tiff_metadata : TiffMetadata) (patch_width : ℤ)
    (level : Option ℤ) (magnification : Option ℚ) :
    Except PyError ExtractionParams :=
  let level := if level.isNone && magnification.isNone then some 0 else level
  match magnification with
  | none => .ok ⟨level, some 1, some patch_width, true⟩
  | some magnification =>
    match tiff_metadata.properties with
    | none => .error .keyError
    | some props =>
      let downsampleResolved : Option ℚ :=
        if truthy props.objectivePower then
          some ((pyInt (props.objectivePower.getD 0) : ℚ) / magnification)
        else if truthy props.mppX then
          let mppx := props.mppX.getD 0
          let mpp_objective := pyMinKey (fun obj => |10 / obj - mppx|) 80 [40, 20, 10, 5]
          some (mpp_objective / magnification)
        else none
      match downsampleResolved with
      | none => .ok ⟨none, none, none, false⟩
      | some downsample =>
        let lvl := _get_best_level_for_downsample tiff_metadata.level_downsamples downsample
        match pyIndex tiff_metadata.level_downsamples lvl with
        | .error e => .error e
        | .ok ld =>
          .ok ⟨some lvl, some (ld / downsample),
            some (pyInt ((patch_width : ℚ) * downsample)), true⟩

/-- A pixel tensor indexed by three axes, with rational pixel values. -/
abbrev PatchT := ℕ → ℕ → ℕ → ℚ

/-- The final two steps of `_torch_patch`: `patch.transpose(2, 0, 1)` turns
the `(y, x, c)` layout into `(c, y, x)`, then `patch / 255.0` is cast to
float32.  The divisor is the fixed constant `255`, whatever the source
dtype. -/
def _torch_patch_tensor (patch : PatchT) : PatchT :=
  fun c y x => patch y x c / 255

/-- Normalization as the spec's words describe it (for comparison with
`_torch_patch_tensor`): divide each pixel by the maximum representable
value of the source integer type. -/
def specNormalizePixel (maxValue v : ℚ) : ℚ := v / maxValue

/-- Torch `.squeeze()` at the shape level: drop every dimension of size 1. -/
def torchSqueeze (shape : List ℕ) : List ℕ := shape.filter (fun d => d ≠ 1)

/-- Modelled from the spec: the registered feature models live in
`sopa.embedding.models`, which is not part of the sources; per the contract
of §4.4 (and the docstring inside `embed_batch`) a model maps a batch of
shape `(N, C, H, W)` to a tensor of shape `(N, output_dim)`. -/
def modelForwardShape (output_dim : ℕ) (shape : List ℕ) : Option (List ℕ) :=
  match shape with
  | [n, _, _, _] => some [n, output_dim]
  | _ => none

/-- Shape behaviour of the closure returned by `embed_batch`: a 3-D input
is promoted with `unsqueeze(0)`, the model is applied, and the result goes
through `.squeeze()`. -/
def embedFnShape (output_dim : ℕ) (shape : List ℕ) : Option (List ℕ) :=
  let shape := if shape.length = 3 then 1 :: shape else shape
  Option.map torchSqueeze (modelForwardShape output_dim shape)

/-- A bounding box `(x0, y0, x1, y1)` in base-resolution pixel coordinates. -/
abbrev Box := ℤ × ℤ × ℤ × ℤ

/-- A registered feature-extraction model: its output dimensionality and
the row that the batched `(n, output_dim)` model output assigns to each
patch (rows are per-patch by the contract of §4.4); the `.squeeze()` and
transpose that `embed_batch`'s closure and the scatter apply to the whole
batch are modelled by `scatterBatch`. -/
structure ModelCap where
  output_dim : ℕ
  embedOne : PatchT → List ℚ

/-- The data of a `Patches2D` grid that `embed_wsi_patches` consumes:
bounding boxes, `(x, y)` grid locations (`ilocs`), and the grid `shape`. -/
structure Grid where
  bboxes : List Box
  ilocs : List (ℕ × ℕ)
  shape : ℕ × ℕ

/-- The embedding canvas `np.zeros((output_dim, *patches.shape))`,
represented cell-wise: `data (y, x)` is the embedding vector of grid cell
`(y, x)`. -/
structure Canvas where
  channels : ℕ
  rows : ℕ
  cols : ℕ
  data : ℕ × ℕ → List ℚ

/-- One pass of the numpy fancy assignment
`embedding_image[:, loc_y, loc_x] = embedder(batch).T`: sequential
cell-wise writes, later writes winning on duplicate targets. -/
def scatterWrites (ws : List ((ℕ × ℕ) × List ℚ)) (d : ℕ × ℕ → List ℚ) :
    ℕ × ℕ → List ℚ :=
  ws.foldl (fun acc w => Function.update acc w.1 w.2) d

/-- One batch's scatter
`embedding_image[:, loc_y, loc_x] = embedder(batch).T`, including the
`.squeeze()` that `embed_batch`'s closure applies to the model output: for
a batch of `n ≥ 2` patches the `(n, output_dim)` output transposes and
scatters column-wise (the cell writes of `scatterWrites`); for a batch of
exactly one patch the squeeze collapses the output to a 1-D vector of
length `output_dim`, which numpy cannot broadcast into the
`(output_dim, 1)` target slot unless `output_dim = 1`: the assignment
raises `ValueError`. -/
def scatterBatch (output_dim : ℕ) (chunk : List ((ℕ × ℕ) × List ℚ))
    (d : ℕ × ℕ → List ℚ) : Except PyError (ℕ × ℕ → List ℚ) :=
  if chunk.length = 1 ∧ output_dim ≠ 1 then .error .valueError
  else .ok (scatterWrites chunk d)

/-- The batch loop `for i in range(0, len(patches), batch_size)`: process
the write list in consecutive chunks of size `batch_size`, scattering each
chunk into the canvas; a broadcast failure in any batch aborts the loop
with `ValueError`. -/
def batchLoopE (output_dim b : ℕ) : List ((ℕ × ℕ) × List ℚ) →
    (ℕ × ℕ → List ℚ) → Except PyError (ℕ × ℕ → List ℚ)
  | [], d => .ok d
  | w :: ws, d =>
    if hb : b = 0 then .ok d
    else
      match scatterBatch output_dim ((w :: ws).take b) d with
      | .error e => .error e
      | .ok d' => batchLoopE output_dim b ((w :: ws).drop b) d'
termination_by ws _ => ws.length
decreasing_by
  simp_wf
  omega

/-- Modelled from the spec: the concrete text of
`SopaKeys.EMBEDDINGS_PATCHES_KEY` (defined in `sopa/_constants.py`, not in
the sources) — a fixed key for the embedding-patches geometry collection;
no theorem below depends on its exact text. -/
def EMBEDDINGS_PATCHES_KEY : String := "sopa_patches_embeddings"

/-- Observable outcome of an `embed_wsi_patches` run that did not raise:
which boxes were extracted, which image / shapes keys were written, and the
produced canvas (`none` when the function returned `False`). -/
structure RunTrace where
  extracted : List Box
  writtenImageKeys : List String
  writtenShapeKeys : List String
  canvas : Option Canvas

/-- `embed_wsi_patches`, parameterized over the external collaborators:
the model registry (`sopa.embedding.models` attribute lookup), the image
metadata, the `Patches2D` grid, and the patch extraction
(`_torch_patch` applied at the resolved level and resize factor).
Faithful to the source's control flow: the registry assertion of
`embed_batch` fires first, then extraction parameters are resolved (their
failure aborts the run with no outputs), then the canvas is filled batch
by batch — a `ValueError` raised by the scatter of any batch (see
`scatterBatch`) aborts the run before either key is written — and on
completion both output keys are written. -/
def embed_wsi_patches (models : String → Option ModelCap)
    (metadata : TiffMetadata) (grid : Grid) (extract : ℤ → ℚ → Box → PatchT)
    (model_name : String) (patch_width : ℤ) (level : Option ℤ)
    (magnification : Option ℚ) (batch_size : ℕ) :
    Except PyError RunTrace :=
  match models model_name with
  | none => .error .assertionError
  | some cap =>
    match _get_extraction_parameters metadata patch_width level magnification with
    | .error e => .error e
    | .ok params =>
      if params.ok then
        let lvl := params.level.getD 0
        let rf := params.resize_factor.getD 1
        let vectors := grid.bboxes.map (fun box => cap.embedOne (extract lvl rf box))
        let targets := grid.ilocs.map (fun p => (p.2, p.1))
        let ws := targets.zip vectors
        let initData : ℕ × ℕ → List ℚ := fun _ => List.replicate cap.output_dim 0
        match batchLoopE cap.output_dim batch_size ws initData with
        | .error e => .error e
        | .ok data =>
          .ok ⟨grid.bboxes, ["sopa_" ++ model_name], [EMBEDDINGS_PATCHES_KEY],
            some ⟨cap.output_dim, grid.shape.1, grid.shape.2, data⟩⟩
      else
        .ok ⟨[], [], [], none⟩

end Sopa

namespace Sopa

/-- The scan loop equals a `takeWhile` count: the result is the last level
when every entry is at most the threshold, and otherwise one less than the
length of the longest prefix of entries at most the threshold. -/
lemma bestLevelScan_eq (t : ℚ) :
    ∀ (lds : List ℚ) (idx total : ℤ),
      bestLevelScan t lds idx total =
        if ∀ d ∈ lds, d ≤ t then total - 1
        else idx + ((lds.takeWhile (fun d => decide (d ≤ t))).length : ℤ) - 1 := by
  intro lds
  induction lds with
  | nil =>
    intro idx total
    simp [bestLevelScan]
  | cons d rest ih =>
    intro idx total
    by_cases hd : t < d
    · have hd' : ¬ d ≤ t := not_le.mpr hd
      have hnot : ¬ ∀ x ∈ d :: rest, x ≤ t := fun hall => hd' (hall d (by simp))
      simp [bestLevelScan, if_pos hd, hnot, List.takeWhile_cons, hd']
    · have hle : d ≤ t := not_lt.mp hd
      have hstep : bestLevelScan t (d :: rest) idx total =
          bestLevelScan t rest (idx + 1) total := by
        simp [bestLevelScan, hd]
      rw [hstep, ih]
      have htw : (d :: rest).takeWhile (fun d => decide (d ≤ t)) =
          d :: rest.takeWhile (fun d => decide (d ≤ t)) := by
        rw [List.takeWhile_cons, if_pos (by simpa using hle)]
      by_cases hall : ∀ x ∈ rest, x ≤ t
      · have hall' : ∀ x ∈ d :: rest, x ≤ t := by
          intro x hx
          rcases List.mem_cons.mp hx with h | h
          · exact h ▸ hle
          · exact hall x h
        rw [if_pos hall, if_pos hall']
      · have hnot : ¬ ∀ x ∈ d :: rest, x ≤ t := by
          intro h
          exact hall fun x hx => h x (List.mem_cons_of_mem d hx)
        rw [if_neg hall, if_neg hnot, htw]
        simp only [List.length_cons]
        push_cast
        ring

/-- Every position strictly inside the `takeWhile` prefix satisfies the
predicate. -/
lemma pred_of_lt_takeWhile (p : ℚ → Bool) :
    ∀ (l : List ℚ) (j : ℕ) (h : j < l.length),
      j < (l.takeWhile p).length → p (l.get ⟨j, h⟩) = true := by
  intro l
  induction l with
  | nil =>
    intro j h
    exact absurd h (by simp)
  | cons d rest ih =>
    intro j h hj
    by_cases hp : p d = true
    · cases j with
      | zero => simpa using hp
      | succ j' =>
        rw [List.takeWhile_cons, if_pos hp] at hj
        exact ih j' (by simpa using h) (by simpa using hj)
    · rw [List.takeWhile_cons, if_neg hp] at hj
      simp at hj

/-- In a non-decreasing list, every position at or past the end of the
`takeWhile (· ≤ t)` prefix holds a value strictly above `t`. -/
lemma gt_of_takeWhile_le (t : ℚ) :
    ∀ (l : List ℚ), List.Pairwise (· ≤ ·) l →
      ∀ (j : ℕ) (h : j < l.length),
        (l.takeWhile (fun d => decide (d ≤ t))).length ≤ j → t < l.get ⟨j, h⟩ := by
  intro l
  induction l with
  | nil =>
    intro _ j h
    exact absurd h (by simp)
  | cons d rest ih =>
    intro hpw j h hj
    rcases List.pairwise_cons.mp hpw with ⟨hd_le, hpw'⟩
    by_cases hle : d ≤ t
    · rw [List.takeWhile_cons, if_pos (by simpa using hle)] at hj
      cases j with
      | zero => simp at hj
      | succ j' =>
        simpa using ih hpw' j' (by simpa using h) (by simpa using hj)
    · have htd : t < d := not_le.mp hle
      cases j with
      | zero => simpa using htd
      | succ j' =>
        have h' : j' < rest.length := by simpa using h
        have hmem : rest.get ⟨j', h'⟩ ∈ rest := List.get_mem rest j' h'
        simpa using lt_of_lt_of_le htd (hd_le _ hmem)

/-- Scattering writes with pairwise-distinct targets is invariant under
permutation of the write list. -/
lemma scatterWrites_perm (ws₁ ws₂ : List ((ℕ × ℕ) × List ℚ)) (d : ℕ × ℕ → List ℚ)
    (hperm : ws₁.Perm ws₂) (hnd : (ws₁.map Prod.fst).Nodup) :
    scatterWrites ws₁ d = scatterWrites ws₂ d := by
  unfold scatterWrites
  refine hperm.foldl_eq' ?_ d
  intro x hx y hy z
  by_cases hxy : x.1 = y.1
  · have hx_eq : x = y := List.inj_on_of_nodup_map hnd hx hy hxy
    subst hx_eq
    rfl
  · exact Function.update_comm hxy x.2 y.2 z

/-- The level returned by `_get_best_level_for_downsample` lies in
`[-1, length)`. -/
lemma bestLevel_bounds (lds : List ℚ) (ds : ℚ) (h : lds ≠ []) :
    -1 ≤ _get_best_level_for_downsample lds ds ∧
      _get_best_level_for_downsample lds ds < (lds.length : ℤ) := by
  have hlen : 0 < lds.length := List.length_pos.mpr h
  unfold _get_best_level_for_downsample
  by_cases hds : ds ≤ 1
  · simp only [if_pos hds]
    omega
  · simp only [if_neg hds]
    rw [bestLevelScan_eq]
    by_cases hall : ∀ d ∈ lds, d ≤ ds + 1 / 100
    · rw [if_pos hall]
      omega
    · rw [if_neg hall]
      have htw : (lds.takeWhile (fun d => decide (d ≤ ds + 1 / 100))).length < lds.length := by
        rcases not_forall.mp hall with ⟨x, hx⟩
        push_neg at hx
        rcases hx with ⟨hmem, hgt⟩
        rcases List.get_of_mem hmem with ⟨⟨j, hj⟩, hget⟩
        by_contra hge
        push_neg at hge
        have := pred_of_lt_takeWhile (fun d => decide (d ≤ ds + 1 / 100)) lds j hj
          (lt_of_lt_of_le hj hge)
        rw [hget] at this
        exact absurd (of_decide_eq_true this) (not_le.mpr hgt)
      omega

/-- Indexing `level_downsamples` at the selected level never raises on a
nonempty list (the `-1` case wraps around to the last entry under Python
indexing). -/
lemma pyIndex_bestLevel (lds : List ℚ) (ds : ℚ) (h : lds ≠ []) :
    ∃ q, pyIndex lds (_get_best_level_for_downsample lds ds) = .ok q := by
  rcases bestLevel_bounds lds ds h with ⟨h1, h2⟩
  have hlen : 0 < lds.length := List.length_pos.mpr h
  unfold pyIndex
  by_cases hneg : _get_best_level_for_downsample lds ds < 0
  · have hj : 0 ≤ _get_best_level_for_downsample lds ds + (lds.length : ℤ) ∧
        _get_best_level_for_downsample lds ds + (lds.length : ℤ) < (lds.length : ℤ) := by
      omega
    simp only [if_pos hneg, dif_pos hj]
    exact ⟨_, rfl⟩
  · have hj : 0 ≤ _get_best_level_for_downsample lds ds ∧
        _get_best_level_for_downsample lds ds < (lds.length : ℤ) := by
      omega
    simp only [if_neg hneg, dif_pos hj]
    exact ⟨_, rfl⟩

/-- For nonnegative arguments Python truncation agrees with the floor. -/
lemma pyInt_eq_floor (q : ℚ) (h : 0 ≤ q) : pyInt q = ⌊q⌋ := by
  simp [pyInt, not_lt.mpr h]

/-- C1: for a monotonically non-decreasing `level_downsamples` with first
entry 1 and any `downsample > 1`, the selected pyramid level is the largest
index whose entry is at most `downsample + 0.01` (equivalently the last
level when no entry exceeds that threshold); in particular for
`level_downsamples = [1, 2, 4, 8]` and `downsample = 3` the selected level
is 1 and the resize factor is `2/3`. -/
theorem best_level_greatest_index :
    (∀ (lds : List ℚ) (downsample : ℚ),
      List.Pairwise (· ≤ ·) lds → lds.head? = some 1 → 1 < downsample →
      ∃ (k : ℕ) (hk : k < lds.length),
        _get_best_level_for_downsample lds downsample = (k : ℤ) ∧
        lds.get ⟨k, hk⟩ ≤ downsample + 1 / 100 ∧
        ∀ (j : ℕ) (hj : j < lds.length), k < j →
          downsample + 1 / 100 < lds.get ⟨j, hj⟩) ∧
    _get_extraction_parameters ⟨some ⟨some 30, none⟩, [1, 2, 4, 8]⟩ 224 none (some 10) =
      .ok ⟨some 1, some (2 / 3), some 672, true⟩ := by
  constructor
  · intro lds downsample hpw hhead hds
    have hlen : 0 < lds.length := by
      cases lds with
      | nil => simp at hhead
      | cons a rest => simp
    have hnle : ¬ downsample ≤ 1 := not_le.mpr hds
    have hhd : ∃ rest, lds = 1 :: rest := by
      cases lds with
      | nil => simp at hhead
      | cons a rest =>
        refine ⟨rest, ?_⟩
        simp only [List.head?_cons, Option.some.injEq] at hhead
        rw [hhead]
    have hone : (1 : ℚ) ≤ downsample + 1 / 100 := by linarith
    unfold _get_best_level_for_downsample
    rw [if_neg hnle, bestLevelScan_eq]
    by_cases hall : ∀ d ∈ lds, d ≤ downsample + 1 / 100
    · rw [if_pos hall]
      refine ⟨lds.length - 1, by omega, ?_, ?_, ?_⟩
      · omega
      · exact hall _ (List.get_mem lds (lds.length - 1) (by omega))
      · intro j hj hkj
        omega
    · rw [if_neg hall]
      have hpref : 0 <
          (lds.takeWhile (fun d => decide (d ≤ downsample + 1 / 100))).length := by
        rcases hhd with ⟨rest, hrest⟩
        subst hrest
        rw [List.takeWhile_cons, if_pos (by simpa using hone)]
        simp
      have hprefle :
          (lds.takeWhile (fun d => decide (d ≤ downsample + 1 / 100))).length ≤
            lds.length :=
        (List.takeWhile_sublist _).length_le
      have hk : (lds.takeWhile (fun d => decide (d ≤ downsample + 1 / 100))).length - 1 <
          lds.length := by omega
      refine ⟨(lds.takeWhile (fun d => decide (d ≤ downsample + 1 / 100))).length - 1,
        hk, by omega, ?_, ?_⟩
      · exact of_decide_eq_true
          (pred_of_lt_takeWhile (fun d => decide (d ≤ downsample + 1 / 100)) lds
            ((lds.takeWhile (fun d => decide (d ≤ downsample + 1 / 100))).length - 1)
            hk (by omega))
      · intro j hj hkj
        exact gt_of_takeWhile_le _ lds hpw j hj (by omega)
  · norm_num [_get_extraction_parameters, truthy, pyInt, pyIndex,
      _get_best_level_for_downsample, bestLevelScan]

/-- C1 witness: the general statement instantiated at the concrete pyramid
`[1, 2, 4, 8]` with `downsample = 3`. -/
theorem best_level_greatest_index_witness :
    ∃ (k : ℕ) (hk : k < ([1, 2, 4, 8] : List ℚ).length),
      _get_best_level_for_downsample [1, 2, 4, 8] 3 = (k : ℤ) ∧
      ([1, 2, 4, 8] : List ℚ).get ⟨k, hk⟩ ≤ 3 + 1 / 100 ∧
      ∀ (j : ℕ) (hj : j < ([1, 2, 4, 8] : List ℚ).length), k < j →
        3 + 1 / 100 < ([1, 2, 4, 8] : List ℚ).get ⟨j, hj⟩ :=
  best_level_greatest_index.1 [1, 2, 4, 8] 3
    (by norm_num) (by norm_num) (by norm_num)

/-- C2 counterexample: with `level_downsamples = [1]`, objective power 20
and magnification 40 the derived `downsample` is `1/2 ≤ 1`; the selected
level is 0 as claimed, but the code computes
`resize_factor = level_downsamples[0] / downsample = 2`, not the claimed
`resize_factor = downsample = 1/2`. -/
theorem resize_factor_reciprocal_cex :
    _get_extraction_parameters ⟨some ⟨some 20, none⟩, [1]⟩ 100 none (some 40) =
      .ok ⟨some 0, some 2, some 50, true⟩ ∧ (2 : ℚ) ≠ 1 / 2 := by
  constructor
  · norm_num [_get_extraction_parameters, truthy, pyInt, pyIndex,
      _get_best_level_for_downsample, bestLevelScan]
  · norm_num

/-- C2 amended: whenever `magnification` is given, the objective power is
present and nonzero, `level_downsamples` is nonempty and the derived
`downsample = int(objective_power) / magnification` is at most 1, the
selected level is 0 and
`resize_factor = level_downsamples[0] / downsample` (the reciprocal of
`downsample` when the first entry is 1), not `downsample` itself. -/
theorem level_zero_resize_factor :
    ∀ (op mag : ℚ) (mppx : Option ℚ) (lds : List ℚ) (pw : ℤ) (lvl : Option ℤ),
      op ≠ 0 → lds ≠ [] → ((pyInt op : ℚ) / mag) ≤ 1 →
      _get_extraction_parameters ⟨some ⟨some op, mppx⟩, lds⟩ pw lvl (some mag) =
        .ok ⟨some 0, some (lds.headI / ((pyInt op : ℚ) / mag)),
          some (pyInt ((pw : ℚ) * ((pyInt op : ℚ) / mag))), true⟩ := by
  intro op mag mppx lds pw lvl hop hlds hds
  cases lds with
  | nil => exact absurd rfl hlds
  | cons a rest =>
    norm_num [_get_extraction_parameters, truthy, hop, pyIndex,
      _get_best_level_for_downsample, hds]

/-- C2 witness: the amended statement evaluated at objective power 10,
magnification 20 and `level_downsamples = [1, 2]`. -/
theorem level_zero_resize_factor_witness :
    _get_extraction_parameters ⟨some ⟨some 10, none⟩, [1, 2]⟩ 7 none (some 20) =
      .ok ⟨some 0, some (([1, 2] : List ℚ).headI / ((pyInt 10 : ℚ) / 20)),
        some (pyInt ((7 : ℚ) * ((pyInt 10 : ℚ) / 20))), true⟩ :=
  level_zero_resize_factor 10 20 none [1, 2] 7 none (by norm_num)
    (by simp) (by norm_num [pyInt])

/-- C3: when magnification is requested and the metadata has a properties
map with neither an objective-power nor an mpp entry, parameter resolution
returns the `ok = false` tuple, and the assembler run returns the failure
value immediately: nothing is extracted, no canvas is produced and neither
output key is written — for every grid, extractor, batch size and remaining
configuration. -/
theorem unresolvable_metadata_failure :
    ∀ (models : String → Option ModelCap) (cap : ModelCap) (lds : List ℚ)
      (grid : Grid) (extract : ℤ → ℚ → Box → PatchT) (model_name : String)
      (pw : ℤ) (lvl : Option ℤ) (mag : ℚ) (b : ℕ),
      models model_name = some cap →
      _get_extraction_parameters ⟨some ⟨none, none⟩, lds⟩ pw lvl (some mag) =
        .ok ⟨none, none, none, false⟩ ∧
      embed_wsi_patches models ⟨some ⟨none, none⟩, lds⟩ grid extract model_name
        pw lvl (some mag) b = .ok ⟨[], [], [], none⟩ := by
  intro models cap lds grid extract model_name pw lvl mag b hm
  have hgep : _get_extraction_parameters ⟨some ⟨none, none⟩, lds⟩ pw lvl (some mag) =
      .ok ⟨none, none, none, false⟩ := by
    simp [_get_extraction_parameters, truthy]
  refine ⟨hgep, ?_⟩
  simp [embed_wsi_patches, hm, hgep]

/-- C3 witness: the failure run at a concrete configuration. -/
theorem unresolvable_metadata_failure_witness :
    _get_extraction_parameters ⟨some ⟨none, none⟩, [1, 2]⟩ 224 (some 0) (some 20) =
      .ok ⟨none, none, none, false⟩ ∧
    embed_wsi_patches (fun _ => some ⟨4, fun _ => [0, 0, 0, 0]⟩)
      ⟨some ⟨none, none⟩, [1, 2]⟩ ⟨[(0, 0, 224, 224)], [(0, 0)], (1, 1)⟩
      (fun _ _ _ => fun _ _ _ => 0) "Resnet50Features" 224 (some 0) (some 20) 32 =
      .ok ⟨[], [], [], none⟩ :=
  unresolvable_metadata_failure (fun _ => some ⟨4, fun _ => [0, 0, 0, 0]⟩)
    ⟨4, fun _ => [0, 0, 0, 0]⟩ [1, 2] ⟨[(0, 0, 224, 224)], [(0, 0)], (1, 1)⟩
    (fun _ _ _ => fun _ _ _ => 0) "Resnet50Features" 224 (some 0) 20 32 rfl

/-- C7: a model name that the registry does not resolve makes the run fail
with the configuration assertion raised before any extraction-parameter
resolution, grid construction or patch extraction — the result is the
assertion error for every metadata, grid, extractor and configuration, and
no trace of extracted patches or written keys exists. -/
theorem unknown_model_fail_fast :
    ∀ (models : String → Option ModelCap) (metadata : TiffMetadata) (grid : Grid)
      (extract : ℤ → ℚ → Box → PatchT) (model_name : String) (pw : ℤ)
      (lvl : Option ℤ) (mag : Option ℚ) (b : ℕ),
      models model_name = none →
      embed_wsi_patches models metadata grid extract model_name pw lvl mag b =
        .error .assertionError := by
  intro models metadata grid extract model_name pw lvl mag b hm
  simp [embed_wsi_patches, hm]

/-- C7 witness: an unregistered name fails on a concrete configuration. -/
theorem unknown_model_fail_fast_witness :
    embed_wsi_patches (fun _ => none) ⟨some ⟨some 20, none⟩, [1]⟩
      ⟨[(0, 0, 32, 32)], [(0, 0)], (1, 1)⟩ (fun _ _ _ => fun _ _ _ => 0)
      "NotAModel" 32 none (some 20) 32 = .error .assertionError :=
  unknown_model_fail_fast (fun _ => none) ⟨some ⟨some 20, none⟩, [1]⟩
    ⟨[(0, 0, 32, 32)], [(0, 0)], (1, 1)⟩ (fun _ _ _ => fun _ _ _ => 0)
    "NotAModel" 32 none (some 20) 32 rfl

/-- C10: with magnification given, a metadata dict lacking the
`"properties"` key entirely (e.g. the empty dict the assembler defaults to)
makes parameter resolution raise `KeyError`; the `ok = false` return value
occurs only when a properties map is present but both the objective-power
and the mpp entries are missing (falsy). -/
theorem properties_keyerror :
    (∀ (lds : List ℚ) (pw : ℤ) (lvl : Option ℤ) (mag : ℚ),
      _get_extraction_parameters ⟨none, lds⟩ pw lvl (some mag) = .error .keyError) ∧
    (∀ (md : TiffMetadata) (pw : ℤ) (lvl : Option ℤ) (mag : ℚ) (p : ExtractionParams),
      _get_extraction_parameters md pw lvl (some mag) = .ok p → p.ok = false →
      ∃ props, md.properties = some props ∧
        truthy props.objectivePower = false ∧ truthy props.mppX = false) := by
  constructor
  · intro lds pw lvl mag
    rfl
  · intro md pw lvl mag p hp hok
    rcases md with ⟨props?, lds⟩
    cases props? with
    | none => simp [_get_extraction_parameters] at hp
    | some props =>
      by_cases h1 : truthy props.objectivePower = true
      · exfalso
        simp only [_get_extraction_parameters, h1, if_true] at hp
        cases hidx : pyIndex lds (_get_best_level_for_downsample lds
            ((pyInt (props.objectivePower.getD 0) : ℚ) / mag)) with
        | error e =>
          rw [hidx] at hp
          exact absurd hp (by simp)
        | ok ld =>
          rw [hidx] at hp
          simp only [Except.ok.injEq] at hp
          rw [← hp] at hok
          simp at hok
      · by_cases h2 : truthy props.mppX = true
        · exfalso
          simp only [_get_extraction_parameters, h1, h2, if_true, if_false,
            Bool.false_eq_true] at hp
          cases hidx : pyIndex lds (_get_best_level_for_downsample lds
              (pyMinKey (fun obj => |10 / obj - props.mppX.getD 0|) 80 [40, 20, 10, 5] /
                mag)) with
          | error e =>
            rw [hidx] at hp
            exact absurd hp (by simp)
          | ok ld =>
            rw [hidx] at hp
            simp only [Except.ok.injEq] at hp
            rw [← hp] at hok
            simp at hok
        · exact ⟨props, rfl, by simpa using h1, by simpa using h2⟩

/-- C10 witness: the `KeyError` at the empty metadata dict, and the
`ok = false` characterization applied to a metadata value whose properties
map is present but empty. -/
theorem properties_keyerror_witness :
    _get_extraction_parameters ⟨none, []⟩ 224 none (some 20) = .error .keyError ∧
    ∃ props, (TiffMetadata.mk (some ⟨none, none⟩) []).properties = some props ∧
      truthy props.objectivePower = false ∧ truthy props.mppX = false :=
  ⟨properties_keyerror.1 [] 224 none 20,
    properties_keyerror.2 ⟨some ⟨none, none⟩, []⟩ 224 none 20 ⟨none, none, none, false⟩
      rfl rfl⟩

/-- C9 counterexample: a successful concrete run (two patches, so the
single batch is not squeeze-degenerate) registers the embedding raster
under `"sopa_DummyFeatures"`, not under the claimed
`"embedding_DummyFeatures"`. -/
theorem embedding_key_cex :
    (embed_wsi_patches
        (fun n => if n = "DummyFeatures" then some ⟨2, fun _ => [5, 7]⟩ else none)
        ⟨some ⟨some 20, none⟩, [1]⟩
        ⟨[(0, 0, 32, 32), (32, 0, 64, 32)], [(0, 0), (1, 0)], (1, 2)⟩
        (fun _ _ _ => fun _ _ _ => 0) "DummyFeatures" 32 none (some 20) 32).map
      RunTrace.writtenImageKeys = .ok ["sopa_DummyFeatures"] ∧
    "sopa_DummyFeatures" ≠ "embedding_DummyFeatures" := by
  constructor
  · norm_num [embed_wsi_patches, _get_extraction_parameters, truthy, pyInt, pyIndex,
      _get_best_level_for_downsample, bestLevelScan, batchLoopE, scatterBatch,
      Except.map]
    rfl
  · decide

/-- C9 amended: whenever a run completes (the batch loop finishes without a
broadcast `ValueError` and returns the canvas data), the embedding raster
key is `"sopa_" ++ model_name` — deterministically derived from the model
name, but with the `"sopa_"` prefix rather than the claimed `"embedding_"`
one — and the canvas channel count equals the model's output
dimensionality. -/
theorem embedding_key_channels :
    ∀ (models : String → Option ModelCap) (cap : ModelCap) (metadata : TiffMetadata)
      (grid : Grid) (extract : ℤ → ℚ → Box → PatchT) (model_name : String) (pw : ℤ)
      (lvl : Option ℤ) (mag : Option ℚ) (b : ℕ) (params : ExtractionParams)
      (dataFinal : ℕ × ℕ → List ℚ),
      models model_name = some cap →
      _get_extraction_parameters metadata pw lvl mag = .ok params →
      params.ok = true →
      batchLoopE cap.output_dim b
          ((grid.ilocs.map fun p => (p.2, p.1)).zip
            (grid.bboxes.map fun box =>
              cap.embedOne (extract (params.level.getD 0) (params.resize_factor.getD 1)
                box)))
          (fun _ => List.replicate cap.output_dim 0) = .ok dataFinal →
      (embed_wsi_patches models metadata grid extract model_name pw lvl mag b).map
        (fun tr => (tr.writtenImageKeys, tr.canvas.map Canvas.channels)) =
        .ok (["sopa_" ++ model_name], some cap.output_dim) := by
  intro models cap metadata grid extract model_name pw lvl mag b params dataFinal
    hm hgep hok hloop
  simp [embed_wsi_patches, hm, hgep, hok, hloop, Except.map]

/-- C9 witness: the amended statement at a concrete successful two-patch
run with a three-dimensional dummy model. -/
theorem embedding_key_channels_witness :
    (embed_wsi_patches (fun _ => some ⟨3, fun _ => [1, 2, 3]⟩)
        ⟨some ⟨some 40, none⟩, [1]⟩
        ⟨[(0, 0, 16, 16), (16, 0, 32, 16)], [(0, 0), (1, 0)], (1, 2)⟩
        (fun _ _ _ => fun _ _ _ => 0) "DummyModel" 16 none (some 40) 8).map
      (fun tr => (tr.writtenImageKeys, tr.canvas.map Canvas.channels)) =
      .ok (["sopa_" ++ "DummyModel"], some 3) :=
  embedding_key_channels (fun _ => some ⟨3, fun _ => [1, 2, 3]⟩)
    ⟨3, fun _ => [1, 2, 3]⟩ ⟨some ⟨some 40, none⟩, [1]⟩
    ⟨[(0, 0, 16, 16), (16, 0, 32, 16)], [(0, 0), (1, 0)], (1, 2)⟩
    (fun _ _ _ => fun _ _ _ => 0) "DummyModel" 16 none (some 40) 8
    ⟨some 0, some 1, some 16, true⟩
    (scatterWrites [((0, 0), [1, 2, 3]), ((0, 1), [1, 2, 3])]
      (fun _ => List.replicate 3 0))
    rfl
    (by norm_num [_get_extraction_parameters, truthy, pyInt, pyIndex,
      _get_best_level_for_downsample, bestLevelScan])
    rfl
    (by simp [batchLoopE, scatterBatch])

/-- A member of a duplicate-free list occurs in it exactly once. -/
lemma nodup_count_eq_one {α : Type} [BEq α] [LawfulBEq α] {l : List α} {a : α}
    (h : l.Nodup) (ha : a ∈ l) : l.count a = 1 := by
  induction l with
  | nil => simp at ha
  | cons x xs ih =>
    rcases List.mem_cons.mp ha with rfl | hmem
    · rw [List.count_cons_self, List.count_eq_zero.mpr (List.nodup_cons.mp h).1]
    · have hne : a ≠ x := by
        rintro rfl
        exact (List.nodup_cons.mp h).1 hmem
      rw [List.count_cons_of_ne hne, ih (List.nodup_cons.mp h).2 hmem]

/-- C4 (code bug): with three patches at pairwise-distinct scatter targets
and a two-dimensional model, batch size 3 completes the run and writes the
outputs, but batch size 2 leaves a final batch of exactly one patch whose
squeezed `(output_dim,)` vector cannot broadcast into the
`(output_dim, 1)` canvas slot: the run raises `ValueError` and produces no
canvas and no outputs, so — contrary to the claim — the final canvas is
not identical across all positive batch sizes. -/
theorem batch_size_valueerror_bug :
    ((([(0, 0), (1, 0), (2, 0)] : List (ℕ × ℕ)).map fun p => (p.2, p.1)).Nodup) ∧
    (embed_wsi_patches (fun _ => some ⟨2, fun _ => [1, 2]⟩) ⟨some ⟨some 40, none⟩, [1]⟩
        ⟨[(0, 0, 16, 16), (16, 0, 32, 16), (32, 0, 48, 16)], [(0, 0), (1, 0), (2, 0)],
          (1, 3)⟩
        (fun _ _ _ => fun _ _ _ => 0) "DummyModel" 16 none (some 40) 3).map
      RunTrace.writtenImageKeys = .ok ["sopa_DummyModel"] ∧
    embed_wsi_patches (fun _ => some ⟨2, fun _ => [1, 2]⟩) ⟨some ⟨some 40, none⟩, [1]⟩
      ⟨[(0, 0, 16, 16), (16, 0, 32, 16), (32, 0, 48, 16)], [(0, 0), (1, 0), (2, 0)],
        (1, 3)⟩
      (fun _ _ _ => fun _ _ _ => 0) "DummyModel" 16 none (some 40) 2 =
      .error .valueError := by
  refine ⟨by decide, ?_, ?_⟩
  · norm_num [embed_wsi_patches, _get_extraction_parameters, truthy, pyInt, pyIndex,
      _get_best_level_for_downsample, bestLevelScan, batchLoopE, scatterBatch,
      Except.map]
    rfl
  · norm_num [embed_wsi_patches, _get_extraction_parameters, truthy, pyInt, pyIndex,
      _get_best_level_for_downsample, bestLevelScan, batchLoopE, scatterBatch]

/-- C5 counterexample: with objective power 177 and magnification 100 the
derived `downsample` is `1.77`; for `patch_width = 10` the code returns
`int(10 * 1.77) = 17` (truncation), while the claimed round-to-nearest
value is `round(17.7) = 18`. -/
theorem patch_width_truncation_cex :
    _get_extraction_parameters ⟨some ⟨some 177, none⟩, [1]⟩ 10 none (some 100) =
      .ok ⟨some 0, some (100 / 177), some 17, true⟩ ∧
    round ((10 : ℚ) * (177 / 100)) = 18 ∧ (17 : ℤ) ≠ 18 := by
  refine ⟨?_, ?_, by norm_num⟩
  · have h17 : ⌊(10 : ℚ) * (177 / 100)⌋ = 17 := by
      rw [Int.floor_eq_iff] <;> norm_num
    norm_num [_get_extraction_parameters, truthy, pyInt, pyIndex,
      _get_best_level_for_downsample, bestLevelScan, h17]
  · norm_num [round_eq, Int.floor_eq_iff]

/-- C5 amended: when magnification is given and the objective power is
resolvable, the adjusted level-0 patch width is
`int(patch_width * downsample)` — Python `int()` truncation toward zero,
which is the floor for the nonnegative values that occur — not
round-to-nearest. -/
theorem patch_width_truncation :
    ∀ (op mag : ℚ) (mppx : Option ℚ) (lds : List ℚ) (pw : ℤ) (lvl : Option ℤ),
      op ≠ 0 → lds ≠ [] →
      (∃ l r, _get_extraction_parameters ⟨some ⟨some op, mppx⟩, lds⟩ pw lvl (some mag) =
        .ok ⟨some l, some r, some (pyInt ((pw : ℚ) * ((pyInt op : ℚ) / mag))), true⟩) ∧
      ∀ q : ℚ, 0 ≤ q → pyInt q = ⌊q⌋ := by
  intro op mag mppx lds pw lvl hop hlds
  constructor
  · rcases pyIndex_bestLevel lds ((pyInt op : ℚ) / mag) hlds with ⟨q, hq⟩
    simp only [one_div] at hq
    refine ⟨_get_best_level_for_downsample lds ((pyInt op : ℚ) / mag),
      q / ((pyInt op : ℚ) / mag), ?_⟩
    simp [_get_extraction_parameters, truthy, hop, hq]
  · exact pyInt_eq_floor

/-- C5 witness: the amended statement at objective power 177,
magnification 100, `patch_width = 10`. -/
theorem patch_width_truncation_witness :
    (∃ l r, _get_extraction_parameters ⟨some ⟨some 177, none⟩, [1]⟩ 10 none (some 100) =
      .ok ⟨some l, some r, some (pyInt ((10 : ℚ) * ((pyInt 177 : ℚ) / 100))), true⟩) ∧
    ∀ q : ℚ, 0 ≤ q → pyInt q = ⌊q⌋ :=
  patch_width_truncation 177 100 none [1] 10 none (by norm_num) (by simp)

/-- C6: the claim (and the docstring inside `embed_batch`) promise output
shape `(N, output_dim)` for every batch of `N ≥ 1` patches, but the
`.squeeze()` applied to the model output collapses the batch dimension of a
batch of one: shape `(1, 3, 224, 224)` with `output_dim = 2048` yields
`(2048,)` instead of `(1, 2048)`.  Batches of two or more are unaffected,
and a 3-D single patch is auto-promoted to exactly the (collapsing) batch
of one. -/
theorem embed_shape_squeeze_bug :
    embedFnShape 2048 [1, 3, 224, 224] = some [2048] ∧
    some [2048] ≠ some ([1, 2048] : List ℕ) ∧
    embedFnShape 2048 [3, 224, 224] = embedFnShape 2048 [1, 3, 224, 224] ∧
    embedFnShape 2048 [2, 3, 224, 224] = some [2, 2048] := by
  refine ⟨rfl, by simp, rfl, rfl⟩

/-- C8 counterexample: a 16-bit source patch with pixel value 510 is mapped
by the code to `510 / 255 = 2`, which differs from the claimed
normalization `510 / 65535` by the maximum of the source integer type and
does not lie in `[0, 1]`. -/
theorem normalize_constant_255_cex :
    _torch_patch_tensor (fun _ _ _ => 510) 0 0 0 = 2 ∧
    specNormalizePixel 65535 510 = 510 / 65535 ∧
    ((2 : ℚ) ≠ 510 / 65535 ∧ ¬ (2 : ℚ) ≤ 1) := by
  refine ⟨?_, rfl, by norm_num, by norm_num⟩
  norm_num [_torch_patch_tensor]

/-- C8 amended: after the transpose to `(channel, row, col)` layout the
extractor always divides by the constant 255 (the maximum of an 8-bit
type), whatever the source integer type; the result lies in `[0, 1]`
exactly for 8-bit pixel values `0 ≤ v ≤ 255`. -/
theorem normalize_constant_255 :
    ∀ (patch : PatchT) (c y x : ℕ),
      _torch_patch_tensor patch c y x = patch y x c / 255 ∧
      (0 ≤ patch y x c → patch y x c ≤ 255 →
        0 ≤ _torch_patch_tensor patch c y x ∧ _torch_patch_tensor patch c y x ≤ 1) := by
  intro patch c y x
  refine ⟨rfl, fun h0 h255 => ⟨?_, ?_⟩⟩
  · unfold _torch_patch_tensor
    positivity
  · unfold _torch_patch_tensor
    rw [div_le_one (by norm_num)]
    exact h255

/-- C8 witness: the amended statement at the constant 8-bit patch with
value 51. -/
theorem normalize_constant_255_witness :
    _torch_patch_tensor (fun _ _ _ => 51) 0 0 0 = (fun _ _ _ => (51 : ℚ)) 0 0 0 / 255 ∧
    0 ≤ _torch_patch_tensor (fun _ _ _ => 51) 0 0 0 ∧
    _torch_patch_tensor (fun _ _ _ => 51) 0 0 0 ≤ 1 :=
  ⟨(normalize_constant_255 (fun _ _ _ => 51) 0 0 0).1,
    (normalize_constant_255 (fun _ _ _ => 51) 0 0 0).2 (by norm_num) (by norm_num)⟩

end Sopa
